import Mathlib

/-!
Shallow embedding of the `create-endpts` scaffolding CLI.

The repository is sequential file-system orchestration: a create workflow
(`CreateCommand.cleanBootstrap`), an augment workflow
(`CreateCommand.augmentExistingProject`), a Vite-integration variant
(`ViteIntegration`), and a package-manager detector (`getPkgManager`).

Modelling conventions:
- JS strings are Lean `String`; `String.prototype.startsWith` is embedded as a
  character-sequence test (`jsStartsWith`).
- The file system is a flat association list from paths (segment lists) to
  entries; inserting shadows older entries, and lookup returns the most recent
  one, which models overwriting.
- `process.exit(1)` is modelled by the `RunResult.fatal` constructor carrying
  the system state at the moment of exit; later steps of a workflow are never
  reached after it, mirroring the source's early-exit control flow.
- Spawning the package manager (`execa`) is an external effect recorded as an
  `ExecaCall` event; the model follows the run in which the child process
  succeeds (a non-zero child exit would also produce `fatal`, but no claim
  depends on it).
- Contents of bundled template files and of the generated routes files are
  opaque blobs (`FileData.blob`); no claim inspects their bytes. The
  `package.json` contents are kept structured (`FileData.manifest`) because the
  workflows read them back and merge script entries; the `JSON.stringify` /
  `JSON.parse` round trip is the identity on these structured values.
-/

/-- The three supported package managers (src: `PackageManager` union type). -/
inductive PackageManager
  | npm
  | pnpm
  | bun
deriving DecidableEq, Repr, Fintype

/-- The binary name used to invoke a package manager (in the source the union
member itself is the string passed to `execa`). -/
def pmName : PackageManager → String
  | .npm => "npm"
  | .pnpm => "pnpm"
  | .bun => "bun"

/-- JS `String.prototype.startsWith`, embedded as a prefix test on the
character sequence of the string. -/
def jsStartsWith (s pre : String) : Bool :=
  pre.data.isPrefixOf s.data

/-- src `getPkgManager`: reads `process.env.npm_config_user_agent` (an unset
variable is `undefined`, and `|| ""` turns `undefined` or `""` into `""`),
then tests prefixes "pnpm" and "bun" in that order, defaulting to npm. -/
def getPkgManager (envUserAgent : Option String) : PackageManager :=
  let userAgent := envUserAgent.getD ""
  if jsStartsWith userAgent "pnpm" then .pnpm
  else if jsStartsWith userAgent "bun" then .bun
  else .npm

/-- src `getExecCmd`: maps the detected manager to its exec-command string. -/
def getExecCmd (envUserAgent : Option String) : String :=
  let pkgManager := getPkgManager envUserAgent
  if pkgManager = .pnpm then "pnpm dlx"
  else if pkgManager = .bun then "bunx"
  else "npx"

/-- Lookup in a JS-object-like association list (first binding wins; a JS
object has at most one binding per key). -/
def jsLookup (m : List (String × String)) (k : String) : Option String :=
  (m.find? (fun e => e.1 == k)).map (fun e => e.2)

/-- JS object spread-with-override `\x7b...m, k: v\x7d`: if `k` is already a key its
value is replaced in place, otherwise the binding is appended at the end. -/
def jsSetKey (m : List (String × String)) (k v : String) : List (String × String) :=
  if m.any (fun e => e.1 == k) then
    m.map (fun e => if e.1 == k then (k, v) else e)
  else
    m ++ [(k, v)]

/-- A parsed `package.json`: the `scripts` mapping, plus the remaining
top-level fields abstracted as a key/serialized-value list. -/
structure Manifest where
  rest : List (String × String)
  scripts : List (String × String)
deriving DecidableEq, Repr

/-- src `CreateCommand.writePackageJson`: the fresh manifest written in create
mode (`name`, `type: "module"`, `version`, `private`, and `scripts.dev`). -/
def createManifest (name : String) : Manifest :=
  { rest := [("name", name), ("type", "module"), ("version", "1.0.0"), ("private", "true")]
    scripts := [("dev", "endpts dev")] }

/-- src `CreateCommand.addDevServerScript` merge:
`packageJson.scripts = \x7b...packageJson.scripts, "dev:server": "endpts dev"\x7d`. -/
def mergeDevServerScript (m : Manifest) : Manifest :=
  { m with scripts := jsSetKey m.scripts "dev:server" "endpts dev" }

/-- The `dev:all` command of the Vite integration variant. -/
def concurrentlyCmd : String :=
  "concurrently -n vite,endpts \"npm:dev\" \"npm:dev:server\""

/-- src `ViteIntegration.addDevServerScript` merge: spreads the old scripts and
then sets `dev:server` and `dev:all`. -/
def viteMergeDevServerScript (m : Manifest) : Manifest :=
  { m with scripts := jsSetKey (jsSetKey m.scripts "dev:server" "endpts dev") "dev:all" concurrentlyCmd }

/-- src `CreateCommand.installDependencies` dev-dependency list (used by both
the create workflow and the `--existing` augment workflow). -/
def devDeps : List String :=
  ["typescript", "@types/node", "@endpts/types", "@endpts/devtools"]

/-- src `CreateCommand.installDependencies`: `args = ["install", "--D", ...devDeps]`,
computed once, independent of which package manager is invoked. -/
def installArgs : List String :=
  ["install", "--D"] ++ devDeps

/-- src `ViteIntegration.installDependencies` dev-dependency list. -/
def viteDevDeps : List String :=
  ["typescript", "@types/node", "@endpts/types", "@endpts/devtools", "concurrently"]

/-- src `ViteIntegration.installDependencies`: same `install --D` shape over
the Vite-variant dependency list. -/
def viteInstallArgs : List String :=
  ["install", "--D"] ++ viteDevDeps

/-- A filesystem path, as a list of segments. -/
abbrev FPath := List String

/-- Contents of a regular file. Structured manifests are kept parsed (the tool
serializes and re-parses them losslessly); template and generated files whose
bytes no claim inspects are opaque blobs tagged by origin. -/
inductive FileData
  | text (s : String)
  | manifest (m : Manifest)
  | blob (tag : String)
deriving DecidableEq, Repr

/-- A filesystem entry: a directory or a regular file. -/
inductive FSEntry
  | dir
  | file (data : FileData)
deriving DecidableEq, Repr

/-- A filesystem: a flat association list from paths to entries. A more recent
binding shadows an older one for the same path (overwrite semantics). -/
structure FS where
  entries : List (FPath × FSEntry)
deriving DecidableEq, Repr

/-- The entry currently at a path, if any (most recent binding wins). -/
def FS.look (fs : FS) (p : FPath) : Option FSEntry :=
  (fs.entries.find? (fun e => e.1 == p)).map (fun e => e.2)

/-- `fs.existsSync(p)`. -/
def FS.pathHas (fs : FS) (p : FPath) : Bool :=
  (fs.look p).isSome

/-- Whether `readdirSync(p)` would return a non-empty listing: some entry is an
immediate child of `p`. -/
def FS.hasChild (fs : FS) (p : FPath) : Bool :=
  fs.entries.any (fun e => e.1 != [] && e.1.dropLast == p)

/-- Bind `p` to `e`, shadowing any previous binding (overwrite). -/
def FS.put (fs : FS) (p : FPath) (e : FSEntry) : FS :=
  ⟨(p, e) :: fs.entries⟩

/-- Non-recursive `fs.mkdirSync(p)`: fails (EEXIST) if `p` already exists, and
(ENOENT/ENOTDIR) if the parent is not an existing directory. -/
def FS.mkdir (fs : FS) (p : FPath) : Option FS :=
  if fs.pathHas p then none
  else if fs.look p.dropLast = some .dir then some (fs.put p .dir)
  else none

/-- `fs.mkdirSync(p, \x7b recursive: true \x7d)` as used during template copy, where
the parent directory always exists already: keep an existing directory, create
the path otherwise. (Error branches for pathological collisions between a file
and a directory of the same destination name are not exercised by the tool's
template tree and are not modelled.) -/
def FS.mkdirp (fs : FS) (p : FPath) : FS :=
  if fs.look p = some .dir then fs else fs.put p .dir

/-- `fs.writeFileSync(p, d)` (the workflows only write where the parent
directory exists, so I/O errors are not structurally reachable here). -/
def FS.writeFile (fs : FS) (p : FPath) (d : FileData) : FS :=
  fs.put p (.file d)

/-- `fs.appendFileSync(p, s)`: appends to an existing text file, creates the
file when absent. (The tool only ever appends to `.gitignore` and env files,
i.e. text contents; appending to other content kinds is never exercised and is
left as the identity.) -/
def FS.appendFile (fs : FS) (p : FPath) (s : String) : FS :=
  match fs.look p with
  | some (.file (.text t)) => fs.put p (.file (.text (t ++ s)))
  | none => fs.put p (.file (.text s))
  | some _ => fs

/-- A node of the bundled template tree (`readdirSync(src, \x7b withFileTypes: true \x7d)`
exposes the name and the directory/file distinction). -/
inductive FNode
  | file (name : String) (data : FileData)
  | dir (name : String) (children : List FNode)

/-- src `CreateCommand.copyFiles` destination-name rule, applied to every entry
before the directory/file branch: an entry literally named `gitignore` is
written as `.gitignore`. -/
def destName (n : String) : String :=
  if n = "gitignore" then ".gitignore" else n

/-- src `CreateCommand.copyFiles`: recursively copy the template entries into
`dest`, renaming `gitignore` entries, creating destination directories
(recursively) and copying files verbatim, in entry order. -/
def copyFiles (fs : FS) (dest : FPath) : List FNode → FS
  | [] => fs
  | FNode.file n d :: rest =>
      copyFiles (fs.writeFile (dest ++ [destName n]) d) dest rest
  | FNode.dir n children :: rest =>
      copyFiles (copyFiles (fs.mkdirp (dest ++ [destName n])) (dest ++ [destName n]) children) dest rest
termination_by es => sizeOf es

/-- One `execa` invocation of an external binary: command name, argument
vector, and working directory. -/
structure ExecaCall where
  bin : String
  args : List String
  cwd : FPath
deriving DecidableEq, Repr

/-- Observable system state threaded through a workflow: the filesystem plus
the recorded external package-manager invocations, in order. -/
structure SysState where
  fs : FS
  installs : List ExecaCall
deriving DecidableEq, Repr

/-- Result of a workflow or of a single step: either it completed, or the
process terminated with exit code 1 (`process.exit(1)`), in both cases with
the system state at that moment. -/
inductive RunResult
  | success (st : SysState)
  | fatal (st : SysState)
deriving DecidableEq, Repr

/-- The system state carried by a result. -/
def RunResult.state : RunResult → SysState
  | .success st => st
  | .fatal st => st

/-- Whether the result is a fatal exit. -/
def RunResult.isFatal : RunResult → Bool
  | .success _ => false
  | .fatal _ => true

/-- src `CreateOptions`: the CLI passes `positionals[0]` (possibly `undefined`,
hence `Option`), the detected manager, and the `--existing` flag (an absent
flag behaves as `false`). -/
structure CreateOptions where
  name : Option String
  packageManager : PackageManager
  existing : Bool
deriving DecidableEq, Repr

/-- src `CreateCommand` fields, all `readonly`, set once by the constructor. -/
structure CreateCommand where
  name : String
  packageManager : PackageManager
  existing : Bool
  projectRootDir : FPath
deriving DecidableEq, Repr

/-- src `CreateCommand` constructor: `this.name = opts.name || "my-api"`
(JS `||` replaces the falsy values `undefined` and `""`), and
`this.projectRootDir` is `cwd` in augment mode, `cwd/name` otherwise. -/
def CreateCommand.make (cwd : FPath) (opts : CreateOptions) : CreateCommand :=
  let n := match opts.name with
    | none => "my-api"
    | some s => if s = "" then "my-api" else s
  { name := n
    packageManager := opts.packageManager
    existing := opts.existing
    projectRootDir := if opts.existing then cwd else cwd ++ [n] }

/-- src `CreateCommand.createProjectDir`: fail when the root exists and is
non-empty ("The project directory already exists or is not empty"), then
`fs.mkdirSync(this.projectRootDir)` (non-recursive), exiting 1 when it throws. -/
def createProjectDir (cmd : CreateCommand) (st : SysState) : RunResult :=
  if st.fs.pathHas cmd.projectRootDir && st.fs.hasChild cmd.projectRootDir then
    .fatal st
  else
    match st.fs.mkdir cmd.projectRootDir with
    | some fs1 => .success { st with fs := fs1 }
    | none => .fatal st

/-- src `CreateCommand.writePackageJson`: serialize the fresh manifest to
`rootDir/package.json`. -/
def writePackageJson (cmd : CreateCommand) (st : SysState) : SysState :=
  { st with fs := st.fs.writeFile (cmd.projectRootDir ++ ["package.json"]) (.manifest (createManifest cmd.name)) }

/-- src `CreateCommand.copyTemplateFiles`: `copyFiles` from the bundled
template tree into the project root. -/
def copyTemplateFiles (cmd : CreateCommand) (tpl : List FNode) (st : SysState) : SysState :=
  { st with fs := copyFiles st.fs cmd.projectRootDir tpl }

/-- The `execa` invocation made by `CreateCommand.installDependencies`: the
manager name as the binary, the fixed `installArgs`, cwd pinned to the root. -/
def installCall (cmd : CreateCommand) : ExecaCall :=
  { bin := pmName cmd.packageManager, args := installArgs, cwd := cmd.projectRootDir }

/-- src `CreateCommand.installDependencies`: spawn the package manager with
`["install", "--D", ...devDeps]` in the project root (run in which the child
process succeeds). -/
def installDependencies (cmd : CreateCommand) (st : SysState) : RunResult :=
  .success { st with installs := st.installs ++ [installCall cmd] }

/-- src `CreateCommand.addDevServerScript`: read and parse
`rootDir/package.json`, merge in `dev:server`, rewrite the file; a missing or
unparsable file throws into the catch block, which exits 1. -/
def addDevServerScript (cmd : CreateCommand) (st : SysState) : RunResult :=
  match st.fs.look (cmd.projectRootDir ++ ["package.json"]) with
  | some (.file (.manifest m)) =>
      .success { st with fs := st.fs.writeFile (cmd.projectRootDir ++ ["package.json"]) (.manifest (mergeDevServerScript m)) }
  | _ => .fatal st

/-- src `CreateCommand.createSampleRoutesDirectory`: refuse to touch an
existing `routes` directory ("A routes directory already exists in this
project"), else `mkdirSync(dest/routes)` and write the README and the example
route file. -/
def createSampleRoutesDirectory (dest : FPath) (st : SysState) : RunResult :=
  if st.fs.pathHas (dest ++ ["routes"]) then
    .fatal st
  else
    match st.fs.mkdir (dest ++ ["routes"]) with
    | none => .fatal st
    | some fs1 =>
        let fs2 := fs1.writeFile (dest ++ ["routes", "README.md"]) (.blob "routes-readme")
        let fs3 := fs2.writeFile (dest ++ ["routes", "get-users.ts"]) (.blob "routes-get-users")
        .success { st with fs := fs3 }

/-- The block appended to `.gitignore` by both augment variants. -/
def gitignoreBlock : String := "\n# endpts\n.ep\n.endpts\n"

/-- src `CreateCommand.addGitIgnoreEntries`: append the endpts block to
`rootDir/.gitignore` only if that file exists; its absence is not an error. -/
def addGitIgnoreEntries (cmd : CreateCommand) (st : SysState) : RunResult :=
  if st.fs.pathHas (cmd.projectRootDir ++ [".gitignore"]) then
    .success { st with fs := st.fs.appendFile (cmd.projectRootDir ++ [".gitignore"]) gitignoreBlock }
  else
    .success st

/-- src `CreateCommand.augmentExistingProject`: precondition that
`rootDir/package.json` exists (else exit 1 before any mutation), then install,
merge, routes scaffold, gitignore update, strictly in that order, each fatal
step terminating the process. -/
def augmentExistingProject (cmd : CreateCommand) (st : SysState) : RunResult :=
  if st.fs.pathHas (cmd.projectRootDir ++ ["package.json"]) then
    match installDependencies cmd st with
    | .fatal st1 => .fatal st1
    | .success st1 =>
        match addDevServerScript cmd st1 with
        | .fatal st2 => .fatal st2
        | .success st2 =>
            match createSampleRoutesDirectory cmd.projectRootDir st2 with
            | .fatal st3 => .fatal st3
            | .success st3 => addGitIgnoreEntries cmd st3
  else
    .fatal st

/-- src `CreateCommand.cleanBootstrap`: directory creation, manifest write,
template copy, dependency install, strictly in that order. -/
def cleanBootstrap (cmd : CreateCommand) (tpl : List FNode) (st : SysState) : RunResult :=
  match createProjectDir cmd st with
  | .fatal st1 => .fatal st1
  | .success st1 =>
      installDependencies cmd (copyTemplateFiles cmd tpl (writePackageJson cmd st1))

/-- src `CreateCommand.run`: dispatch on the `--existing` flag. -/
def CreateCommand.run (cmd : CreateCommand) (tpl : List FNode) (st : SysState) : RunResult :=
  if cmd.existing then augmentExistingProject cmd st else cleanBootstrap cmd tpl st

/-- src `ViteIntegration.addEnvVars` candidate environment files, in search
order. -/
def envCandidates : List String :=
  [".env", ".env.local", ".env.development", ".env.development.local"]

/-- The entry appended to the first existing candidate env file. -/
def envAppendEntry : String := "\n\n# endpts\nVITE_ENDPTS_API_URL=http://localhost:3000\n"

/-- The contents of a freshly created `.env` file. -/
def envNewContent : String := "# endpts\nVITE_ENDPTS_API_URL=http://localhost:3000\n"

/-- src `ViteIntegration.addEnvVars`: find the first existing candidate env
file and append the endpts entry to it; when none exists, create a new `.env`
containing the entry. -/
def addEnvVars (root : FPath) (fs : FS) : FS :=
  match envCandidates.find? (fun env => fs.pathHas (root ++ [env])) with
  | some envFile => fs.appendFile (root ++ [envFile]) envAppendEntry
  | none => fs.writeFile (root ++ [".env"]) (.text envNewContent)

/-- The `execa` invocation made by `ViteIntegration.installDependencies`. -/
def viteInstallCall (pm : PackageManager) (root : FPath) : ExecaCall :=
  { bin := pmName pm, args := viteInstallArgs, cwd := root }

theorem FS.look_put_self (fs : FS) (p : FPath) (e : FSEntry) :
    (fs.put p e).look p = some e := by
  simp [FS.look, FS.put, List.find?]

theorem FS.look_put_ne (fs : FS) (p q : FPath) (e : FSEntry) (h : q ≠ p) :
    (fs.put p e).look q = fs.look q := by
  have hb : (p == q) = false := beq_eq_false_iff_ne.mpr (Ne.symm h)
  simp [FS.look, FS.put, List.find?, hb]

theorem FS.pathHas_of_look (fs : FS) (p : FPath) (e : FSEntry)
    (h : fs.look p = some e) : fs.pathHas p = true := by
  simp [FS.pathHas, h]

theorem FS.mkdirp_look_self (fs : FS) (p : FPath) :
    (fs.mkdirp p).look p = some .dir := by
  unfold FS.mkdirp
  split
  · assumption
  · exact fs.look_put_self p .dir

theorem FS.mkdirp_look_ne (fs : FS) (p q : FPath) (h : q ≠ p) :
    (fs.mkdirp p).look q = fs.look q := by
  unfold FS.mkdirp
  split
  · rfl
  · exact fs.look_put_ne p q .dir h

theorem FS.appendFile_look_ne (fs : FS) (p q : FPath) (s : String) (h : q ≠ p) :
    (fs.appendFile p s).look q = fs.look q := by
  unfold FS.appendFile
  split
  · exact fs.look_put_ne p q _ h
  · exact fs.look_put_ne p q _ h
  · rfl

theorem FS.writeFile_look_self (fs : FS) (p : FPath) (d : FileData) :
    (fs.writeFile p d).look p = some (.file d) :=
  fs.look_put_self p (.file d)

theorem FS.writeFile_look_ne (fs : FS) (p q : FPath) (d : FileData) (h : q ≠ p) :
    (fs.writeFile p d).look q = fs.look q :=
  fs.look_put_ne p q (.file d) h

/-- A path strictly below another: a proper extension of it. -/
def strictUnder (q dest : FPath) : Prop :=
  dest.length < q.length ∧ q.take dest.length = dest

theorem strictUnder_append_one (dest : FPath) (x : String) :
    strictUnder (dest ++ [x]) dest := by
  constructor
  · simp
  · exact List.take_left dest [x]

theorem ne_append_one_of_not_strictUnder (q dest : FPath) (x : String)
    (h : ¬ strictUnder q dest) : q ≠ dest ++ [x] := by
  intro he
  exact h (he ▸ strictUnder_append_one dest x)

theorem strictUnder_of_strictUnder_append_one (q dest : FPath) (x : String)
    (h : strictUnder q (dest ++ [x])) : strictUnder q dest := by
  obtain ⟨hl, ht⟩ := h
  constructor
  · simp at hl; omega
  · have h1 : q.take dest.length = (q.take (dest ++ [x]).length).take dest.length := by
      rw [List.take_take, Nat.min_eq_left (by simp)]
    rw [h1, ht]
    exact List.take_left dest [x]

/-- `copyFiles` writes only strictly below its destination directory: every
other path keeps its previous entry. -/
theorem copyFiles_look_outside (fs : FS) (dest : FPath) (es : List FNode) :
    ∀ q, ¬ strictUnder q dest → (copyFiles fs dest es).look q = fs.look q := by
  induction fs, dest, es using copyFiles.induct with
  | case1 fs dest =>
      intro q _
      simp [copyFiles]
  | case2 fs dest n d rest ih =>
      intro q hq
      simp only [copyFiles]
      rw [ih q hq]
      exact FS.writeFile_look_ne fs _ q d (ne_append_one_of_not_strictUnder q dest _ hq)
  | case3 fs dest n children rest ih1 ih2 =>
      intro q hq
      simp only [copyFiles]
      rw [ih2 q hq]
      rw [ih1 q (fun hsu => hq (strictUnder_of_strictUnder_append_one q dest _ hsu))]
      exact FS.mkdirp_look_ne fs _ q (ne_append_one_of_not_strictUnder q dest _ hq)


theorem find_map_set_self (t : List (String × String)) (k v : String) :
    (t.map (fun e => if e.1 == k then (k, v) else e)).find? (fun e => e.1 == k)
      = if t.any (fun e => e.1 == k) then some (k, v) else none := by
  induction t with
  | nil => simp
  | cons a l ih =>
      by_cases ha : a.1 = k
      · have hbt : (a.1 == k) = true := by simp [ha]
        simp only [List.map_cons, List.any_cons, hbt, eq_self_iff_true, if_true,
          Bool.true_or, List.find?_cons, beq_self_eq_true]
      · have hb : (a.1 == k) = false := beq_eq_false_iff_ne.mpr ha
        simp only [List.map_cons, List.any_cons, hb, Bool.false_eq_true, if_false,
          Bool.false_or, List.find?_cons]
        exact ih

theorem find_map_set_ne (t : List (String × String)) (k v k2 : String) (h : k2 ≠ k) :
    (t.map (fun e => if e.1 == k then (k, v) else e)).find? (fun e => e.1 == k2)
      = t.find? (fun e => e.1 == k2) := by
  have hk2 : (k == k2) = false := beq_eq_false_iff_ne.mpr (Ne.symm h)
  induction t with
  | nil => simp
  | cons a l ih =>
      by_cases ha : a.1 = k
      · have hbt : (a.1 == k) = true := by simp [ha]
        have h2 : (a.1 == k2) = false := by rw [ha]; exact hk2
        simp only [List.map_cons, hbt, eq_self_iff_true, if_true, List.find?_cons, hk2, h2]
        exact ih
      · have hb : (a.1 == k) = false := beq_eq_false_iff_ne.mpr ha
        cases hak : (a.1 == k2) with
        | true =>
            simp only [List.map_cons, hb, Bool.false_eq_true, if_false, List.find?_cons, hak]
        | false =>
            simp only [List.map_cons, hb, Bool.false_eq_true, if_false, List.find?_cons, hak]
            exact ih

/-- After a JS spread-with-override, the overridden key maps to the new
value. -/
theorem jsLookup_jsSetKey_self (m : List (String × String)) (k v : String) :
    jsLookup (jsSetKey m k v) k = some v := by
  unfold jsSetKey jsLookup
  split
  · rename_i h
    rw [find_map_set_self, if_pos h]
    rfl
  · rename_i h
    rw [List.find?_append]
    have hnone : m.find? (fun e => e.1 == k) = none := by
      rw [List.find?_eq_none]
      intro x hx hpx
      exact h (List.any_eq_true.mpr ⟨x, hx, hpx⟩)
    rw [hnone]
    simp [List.find?]

/-- A JS spread-with-override leaves every other key unchanged. -/
theorem jsLookup_jsSetKey_ne (m : List (String × String)) (k v k2 : String)
    (h : k2 ≠ k) : jsLookup (jsSetKey m k v) k2 = jsLookup m k2 := by
  unfold jsSetKey jsLookup
  split
  · rw [find_map_set_ne m k v k2 h]
  · have hk2 : (k == k2) = false := beq_eq_false_iff_ne.mpr (Ne.symm h)
    rw [List.find?_append]
    simp [List.find?, hk2]

/-- A string cannot start with both "pnpm" and "bun": the first characters
differ. -/
theorem not_bun_of_pnpm (s : String) (h : jsStartsWith s "pnpm" = true) :
    jsStartsWith s "bun" = false := by
  unfold jsStartsWith at h ⊢
  have ep : "pnpm".data = ['p', 'n', 'p', 'm'] := rfl
  have eb : "bun".data = ['b', 'u', 'n'] := rfl
  rw [ep] at h
  rw [eb]
  cases hd : s.data with
  | nil => rw [hd] at h; exact absurd h (by decide)
  | cons c cs =>
      rw [hd] at h
      rw [List.isPrefixOf_cons₂] at h
      have hc : c = 'p' := by
        have h1 := ((Bool.and_eq_true _ _).mp h).1
        have h2 : 'p' = c := by simpa using h1
        exact h2.symm
      subst hc
      rw [List.isPrefixOf_cons₂]
      have hbp : ('b' == 'p') = false := by decide
      rw [hbp, Bool.false_and]

/-- C2: every user-agent string starting with "pnpm" detects pnpm, every one
starting with "bun" detects bun, every other input — including the empty
string and an unset variable — detects npm; the detector is a total function
with no error outcome (its Lean type is total by construction). -/
theorem claim_C2_pkg_manager_detection :
    (∀ s : String, jsStartsWith s "pnpm" = true → getPkgManager (some s) = .pnpm)
    ∧ (∀ s : String, jsStartsWith s "bun" = true → getPkgManager (some s) = .bun)
    ∧ (∀ s : String, jsStartsWith s "pnpm" = false → jsStartsWith s "bun" = false →
        getPkgManager (some s) = .npm)
    ∧ getPkgManager none = .npm
    ∧ getPkgManager (some "") = .npm := by
  refine ⟨?_, ?_, ?_, by decide, by decide⟩
  · intro s h
    simp [getPkgManager, h]
  · intro s h
    cases hp : jsStartsWith s "pnpm" with
    | false => simp [getPkgManager, hp, h]
    | true =>
        have hf := not_bun_of_pnpm s hp
        rw [h] at hf
        exact absurd hf (by decide)
  · intro s h1 h2
    simp [getPkgManager, h1, h2]

/-- Witness for C2 at concrete user agents. -/
theorem claim_C2_witness :
    getPkgManager (some "pnpm/8.6.0 npm/? node/v18.16.0") = .pnpm
    ∧ getPkgManager (some "bun/1.0.0") = .bun
    ∧ getPkgManager (some "npm/9.5.1 node/v18.16.0") = .npm :=
  ⟨claim_C2_pkg_manager_detection.1 _ (by decide),
   claim_C2_pkg_manager_detection.2.1 _ (by decide),
   claim_C2_pkg_manager_detection.2.2.1 _ (by decide) (by decide)⟩

/-- C3: when `rootDir/package.json` does not exist, the augment workflow exits
fatally with the system state untouched: no install event is recorded and the
filesystem is returned exactly as it was. -/
theorem claim_C3_augment_precondition :
    ∀ (cmd : CreateCommand) (st : SysState),
      st.fs.pathHas (cmd.projectRootDir ++ ["package.json"]) = false →
      augmentExistingProject cmd st = .fatal st := by
  intro cmd st h
  simp [augmentExistingProject, h]

/-- Witness for C3: an augment run from an empty project root. -/
theorem claim_C3_witness :
    augmentExistingProject (CreateCommand.make ["w"] ⟨none, PackageManager.npm, true⟩)
        ⟨⟨[(["w"], .dir)]⟩, []⟩
      = .fatal ⟨⟨[(["w"], .dir)]⟩, []⟩ :=
  claim_C3_augment_precondition _ _ (by decide)

/-- C4: the augment-mode script merge keeps every top-level manifest field
other than `scripts`, maps `dev:server` to "endpts dev", and preserves every
pre-existing script whose key is not reserved (`dev:server`; in the Vite
variant also `dev:all`). -/
theorem claim_C4_manifest_merge :
    ∀ m : Manifest,
      (mergeDevServerScript m).rest = m.rest
      ∧ jsLookup (mergeDevServerScript m).scripts "dev:server" = some "endpts dev"
      ∧ (∀ k, k ≠ "dev:server" →
          jsLookup (mergeDevServerScript m).scripts k = jsLookup m.scripts k)
      ∧ (viteMergeDevServerScript m).rest = m.rest
      ∧ jsLookup (viteMergeDevServerScript m).scripts "dev:server" = some "endpts dev"
      ∧ (∀ k, k ≠ "dev:server" → k ≠ "dev:all" →
          jsLookup (viteMergeDevServerScript m).scripts k = jsLookup m.scripts k) := by
  intro m
  refine ⟨rfl, jsLookup_jsSetKey_self _ _ _, ?_, rfl, ?_, ?_⟩
  · intro k h
    exact jsLookup_jsSetKey_ne _ _ _ _ h
  · show jsLookup (jsSetKey (jsSetKey m.scripts "dev:server" "endpts dev") "dev:all" concurrentlyCmd) "dev:server" = some "endpts dev"
    rw [jsLookup_jsSetKey_ne _ _ _ _ (by decide)]
    exact jsLookup_jsSetKey_self _ _ _
  · intro k h1 h2
    show jsLookup (jsSetKey (jsSetKey m.scripts "dev:server" "endpts dev") "dev:all" concurrentlyCmd) k = jsLookup m.scripts k
    rw [jsLookup_jsSetKey_ne _ _ _ _ h2, jsLookup_jsSetKey_ne _ _ _ _ h1]

/-- Witness for C4 at a manifest that already has a `dev:server` entry and an
unrelated `build` entry. -/
theorem claim_C4_witness :
    jsLookup (mergeDevServerScript ⟨[("name", "app")], [("dev:server", "old"), ("build", "tsc")]⟩).scripts "build"
      = jsLookup (⟨[("name", "app")], [("dev:server", "old"), ("build", "tsc")]⟩ : Manifest).scripts "build"
    ∧ jsLookup (mergeDevServerScript ⟨[("name", "app")], [("dev:server", "old"), ("build", "tsc")]⟩).scripts "dev:server"
      = some "endpts dev"
    ∧ jsLookup (viteMergeDevServerScript ⟨[("name", "app")], [("dev:server", "old"), ("build", "tsc")]⟩).scripts "build"
      = jsLookup (⟨[("name", "app")], [("dev:server", "old"), ("build", "tsc")]⟩ : Manifest).scripts "build" :=
  ⟨(claim_C4_manifest_merge _).2.2.1 "build" (by decide),
   (claim_C4_manifest_merge _).2.1,
   (claim_C4_manifest_merge _).2.2.2.2.2 "build" (by decide) (by decide)⟩

/-- C10: the project name defaults to "my-api" both when the positional
argument is absent and when it is the empty string (any falsy value), and the
constructor computes `projectRootDir` as the working directory in augment mode
and as the working directory joined with the (possibly defaulted) name in
create mode. The fields of `CreateCommand` are immutable (`readonly` in the
source); every later step reads `projectRootDir` from this record, which no
step can rewrite. -/
theorem claim_C10_constructor :
    ∀ (cwd : FPath) (opts : CreateOptions),
      ((opts.name = none ∨ opts.name = some "") → (CreateCommand.make cwd opts).name = "my-api")
      ∧ (opts.existing = true → (CreateCommand.make cwd opts).projectRootDir = cwd)
      ∧ (opts.existing = false →
          (CreateCommand.make cwd opts).projectRootDir = cwd ++ [(CreateCommand.make cwd opts).name]) := by
  intro cwd opts
  refine ⟨?_, ?_, ?_⟩
  · rintro (h | h) <;> simp [CreateCommand.make, h]
  · intro h
    simp [CreateCommand.make, h]
  · intro h
    simp [CreateCommand.make, h]

/-- Witness for C10: empty-string name defaults; root is cwd in augment mode
and cwd/name in create mode. -/
theorem claim_C10_witness :
    (CreateCommand.make ["w"] ⟨some "", PackageManager.npm, false⟩).name = "my-api"
    ∧ (CreateCommand.make ["w"] ⟨none, PackageManager.npm, true⟩).projectRootDir = ["w"]
    ∧ (CreateCommand.make ["w"] ⟨some "app", PackageManager.npm, false⟩).projectRootDir
        = ["w"] ++ [(CreateCommand.make ["w"] ⟨some "app", PackageManager.npm, false⟩).name] :=
  ⟨(claim_C10_constructor ["w"] ⟨some "", PackageManager.npm, false⟩).1 (Or.inr rfl),
   (claim_C10_constructor ["w"] ⟨none, PackageManager.npm, true⟩).2.1 rfl,
   (claim_C10_constructor ["w"] ⟨some "app", PackageManager.npm, false⟩).2.2 rfl⟩

/-- C9: in the recursive template copy the rename rule is applied to the
destination name before the directory/file branch, so a template DIRECTORY
named `gitignore` is created as `.gitignore` at the destination and its
children are recursed into it; no entry appears under the literal name
`gitignore`. -/
theorem claim_C9_gitignore_dir_rename :
    ∀ (fs : FS) (dest : FPath) (ch : List FNode),
      (copyFiles fs dest [FNode.dir "gitignore" ch]).look (dest ++ [".gitignore"]) = some .dir
      ∧ (copyFiles fs dest [FNode.dir "gitignore" ch]).look (dest ++ ["gitignore"])
          = fs.look (dest ++ ["gitignore"])
      ∧ (∀ n d, ch = [FNode.file n d] →
          (copyFiles fs dest [FNode.dir "gitignore" ch]).look (dest ++ [".gitignore", destName n])
            = some (.file d)) := by
  intro fs dest ch
  have hdn : destName "gitignore" = ".gitignore" := by simp [destName]
  refine ⟨?_, ?_, ?_⟩
  · simp only [copyFiles, hdn]
    rw [copyFiles_look_outside _ _ _ _ (by intro hsu; exact absurd hsu.1 (lt_irrefl _))]
    exact FS.mkdirp_look_self fs _
  · simp only [copyFiles, hdn]
    rw [copyFiles_look_outside _ _ _ _ ?hout]
    case hout =>
      intro hsu
      have hlen := hsu.1
      simp at hlen
    exact FS.mkdirp_look_ne fs _ _ (by simp)
  · intro n d h
    subst h
    simp only [copyFiles, hdn]
    have hassoc : (dest ++ [".gitignore"]) ++ [destName n] = dest ++ [".gitignore", destName n] := by
      simp
    rw [hassoc]
    exact FS.writeFile_look_self _ _ d

/-- Witness for C9: copying a template whose `gitignore` entry is a directory
holding one file. -/
theorem claim_C9_witness :
    (copyFiles ⟨[]⟩ ["t"] [FNode.dir "gitignore" [FNode.file "keep" (.blob "x")]]).look
        (["t"] ++ [".gitignore", destName "keep"]) = some (.file (.blob "x")) :=
  (claim_C9_gitignore_dir_rename ⟨[]⟩ ["t"] [FNode.file "keep" (.blob "x")]).2.2 "keep" (.blob "x") rfl

/-- C8: the environment-file step searches the fixed ordered candidate list
`.env`, `.env.local`, `.env.development`, `.env.development.local`; it appends
the entry to the first existing candidate (in that order) touching no other
path, and when no candidate exists it creates a fresh `.env` holding the
entry. -/
theorem claim_C8_env_file_update :
    ∀ (root : FPath) (fs : FS),
      (∀ e, (envCandidates.find? fun env => fs.pathHas (root ++ [env])) = some e →
        addEnvVars root fs = fs.appendFile (root ++ [e]) envAppendEntry
        ∧ fs.pathHas (root ++ [e]) = true
        ∧ (∀ q, q ≠ root ++ [e] → (addEnvVars root fs).look q = fs.look q))
      ∧ (fs.pathHas (root ++ [".env"]) = true →
          (envCandidates.find? fun env => fs.pathHas (root ++ [env])) = some ".env")
      ∧ (fs.pathHas (root ++ [".env"]) = false → fs.pathHas (root ++ [".env.local"]) = true →
          (envCandidates.find? fun env => fs.pathHas (root ++ [env])) = some ".env.local")
      ∧ (fs.pathHas (root ++ [".env"]) = false → fs.pathHas (root ++ [".env.local"]) = false →
          fs.pathHas (root ++ [".env.development"]) = true →
          (envCandidates.find? fun env => fs.pathHas (root ++ [env])) = some ".env.development")
      ∧ (fs.pathHas (root ++ [".env"]) = false → fs.pathHas (root ++ [".env.local"]) = false →
          fs.pathHas (root ++ [".env.development"]) = false →
          fs.pathHas (root ++ [".env.development.local"]) = true →
          (envCandidates.find? fun env => fs.pathHas (root ++ [env])) = some ".env.development.local")
      ∧ ((∀ e, e ∈ envCandidates → fs.pathHas (root ++ [e]) = false) →
          (envCandidates.find? fun env => fs.pathHas (root ++ [env])) = none
          ∧ addEnvVars root fs = fs.writeFile (root ++ [".env"]) (.text envNewContent)
          ∧ (addEnvVars root fs).look (root ++ [".env"]) = some (.file (.text envNewContent))) := by
  intro root fs
  refine ⟨?_, ?_, ?_, ?_, ?_, ?_⟩
  · intro e he
    refine ⟨?_, ?_, ?_⟩
    · unfold addEnvVars
      rw [he]
    · have hp := List.find?_some he
      simpa using hp
    · intro q hq
      unfold addEnvVars
      rw [he]
      exact fs.appendFile_look_ne _ q envAppendEntry hq
  · intro h1
    simp [envCandidates, List.find?, h1]
  · intro h1 h2
    simp [envCandidates, List.find?, h1, h2]
  · intro h1 h2 h3
    simp [envCandidates, List.find?, h1, h2, h3]
  · intro h1 h2 h3 h4
    simp [envCandidates, List.find?, h1, h2, h3, h4]
  · intro hall
    have hnone : (envCandidates.find? fun env => fs.pathHas (root ++ [env])) = none := by
      rw [List.find?_eq_none]
      intro x hx
      simp [hall x hx]
    refine ⟨hnone, ?_, ?_⟩
    · unfold addEnvVars
      rw [hnone]
    · unfold addEnvVars
      rw [hnone]
      exact fs.writeFile_look_self _ _

/-- Witness for C8: a root whose only candidate is `.env.development` gets the
append there; a root with no candidates gets a fresh `.env`. -/
theorem claim_C8_witness :
    addEnvVars ["w"] ⟨[(["w", ".env.development"], .file (.text "A=1"))]⟩
      = FS.appendFile ⟨[(["w", ".env.development"], .file (.text "A=1"))]⟩ (["w"] ++ [".env.development"]) envAppendEntry
    ∧ (addEnvVars ["w"] ⟨[]⟩).look (["w"] ++ [".env"]) = some (.file (.text envNewContent)) :=
  ⟨((claim_C8_env_file_update ["w"] ⟨[(["w", ".env.development"], .file (.text "A=1"))]⟩).1
      ".env.development" (by decide)).1,
   ((claim_C8_env_file_update ["w"] ⟨[]⟩).2.2.2.2.2 (by decide)).2.2⟩

theorem FS.pathHas_writeFile_ne (fs : FS) (p q : FPath) (d : FileData) (h : q ≠ p) :
    (fs.writeFile p d).pathHas q = fs.pathHas q := by
  unfold FS.pathHas
  rw [fs.writeFile_look_ne p q d h]

theorem FS.pathHas_appendFile_ne (fs : FS) (p q : FPath) (s : String) (h : q ≠ p) :
    (fs.appendFile p s).pathHas q = fs.pathHas q := by
  unfold FS.pathHas
  rw [fs.appendFile_look_ne p q s h]

/-- The routes-scaffold step fails fatally, changing nothing, when a `routes`
directory is already present. -/
theorem routes_fatal_of_present (dest : FPath) (st : SysState)
    (h : st.fs.pathHas (dest ++ ["routes"]) = true) :
    createSampleRoutesDirectory dest st = .fatal st := by
  simp [createSampleRoutesDirectory, h]

/-- When the project has a parsable manifest and a `routes` directory already
exists, the augment workflow terminates fatally at the routes-scaffold step:
the final state still carries the recorded dependency install and the merged
manifest, and nothing else. -/
theorem augment_fatal_at_routes (cmd : CreateCommand) (st : SysState) (m : Manifest)
    (hpkg : st.fs.look (cmd.projectRootDir ++ ["package.json"]) = some (.file (.manifest m)))
    (hroutes : st.fs.pathHas (cmd.projectRootDir ++ ["routes"]) = true) :
    augmentExistingProject cmd st
      = .fatal ⟨st.fs.writeFile (cmd.projectRootDir ++ ["package.json"]) (.manifest (mergeDevServerScript m)),
                st.installs ++ [installCall cmd]⟩ := by
  have hex : st.fs.pathHas (cmd.projectRootDir ++ ["package.json"]) = true :=
    FS.pathHas_of_look _ _ _ hpkg
  have hroutes2 : (st.fs.writeFile (cmd.projectRootDir ++ ["package.json"])
      (.manifest (mergeDevServerScript m))).pathHas (cmd.projectRootDir ++ ["routes"]) = true := by
    rw [FS.pathHas_writeFile_ne _ _ _ _ (by simp)]
    exact hroutes
  unfold augmentExistingProject
  simp only [hex, if_true, installDependencies]
  unfold addDevServerScript
  simp only [hpkg]
  unfold createSampleRoutesDirectory
  simp only [hroutes2, if_true]

/-- Shape of the state after a SUCCESSFUL augment run: the manifest file holds
a parsed manifest, a `routes` directory now exists, and exactly one dependency
install was recorded. -/
theorem augment_success_shape (cmd : CreateCommand) (st st2 : SysState)
    (h : augmentExistingProject cmd st = .success st2) :
    (∃ m2, st2.fs.look (cmd.projectRootDir ++ ["package.json"]) = some (.file (.manifest m2)))
    ∧ st2.fs.pathHas (cmd.projectRootDir ++ ["routes"]) = true
    ∧ st2.installs = st.installs ++ [installCall cmd] := by
  unfold augmentExistingProject at h
  split at h
  case isFalse => exact RunResult.noConfusion h
  rename_i hex
  simp only [installDependencies] at h
  split at h
  next x haux => exact RunResult.noConfusion h
  next stB haux =>
  split at h
  next y heq2 => exact RunResult.noConfusion h
  next stC heq2 =>
  unfold addDevServerScript at haux
  split at haux
  next m hlook =>
    injection haux with haux
    unfold createSampleRoutesDirectory at heq2
    split at heq2
    · exact RunResult.noConfusion heq2
    rename_i hroutesF
    split at heq2
    next hmk => exact RunResult.noConfusion heq2
    next fs1 hmk =>
    injection heq2 with heq2
    unfold FS.mkdir at hmk
    split at hmk
    · exact Option.noConfusion hmk
    split at hmk
    next hparent =>
      injection hmk with hmk
      unfold addGitIgnoreEntries at h
      subst haux heq2 hmk
      split at h
      all_goals injection h with h
      all_goals subst h
      · refine ⟨⟨mergeDevServerScript m, ?_⟩, ?_, rfl⟩
        · dsimp only
          rw [FS.appendFile_look_ne _ _ _ _ (by simp)]
          rw [FS.writeFile_look_ne _ _ _ _ (by simp)]
          rw [FS.writeFile_look_ne _ _ _ _ (by simp)]
          rw [FS.look_put_ne _ _ _ _ (by simp)]
          dsimp only at hlook ⊢
          rw [FS.writeFile_look_self]
        · dsimp only
          unfold FS.pathHas
          rw [FS.appendFile_look_ne _ _ _ _ (by simp)]
          rw [FS.writeFile_look_ne _ _ _ _ (by simp)]
          rw [FS.writeFile_look_ne _ _ _ _ (by simp)]
          rw [FS.look_put_self]
          rfl
      · refine ⟨⟨mergeDevServerScript m, ?_⟩, ?_, rfl⟩
        · dsimp only
          rw [FS.writeFile_look_ne _ _ _ _ (by simp)]
          rw [FS.writeFile_look_ne _ _ _ _ (by simp)]
          rw [FS.look_put_ne _ _ _ _ (by simp)]
          dsimp only at hlook ⊢
          rw [FS.writeFile_look_self]
        · dsimp only
          unfold FS.pathHas
          rw [FS.writeFile_look_ne _ _ _ _ (by simp)]
          rw [FS.writeFile_look_ne _ _ _ _ (by simp)]
          rw [FS.look_put_self]
          rfl
    next => exact Option.noConfusion hmk
  next hnm => exact RunResult.noConfusion haux

/-- C5: when `rootDir/routes` already exists the routes-scaffold step fails
fatally without modifying anything; at workflow level the augment run then
terminates with the dependency install and the manifest merge still applied —
no rollback — and consequently a second augment run over the state produced by
a successful first run fails at the routes-scaffold step, again keeping its
own install and merge effects. -/
theorem claim_C5_routes_failure :
    (∀ (dest : FPath) (st : SysState),
        st.fs.pathHas (dest ++ ["routes"]) = true →
        createSampleRoutesDirectory dest st = .fatal st)
    ∧ (∀ (cmd : CreateCommand) (st : SysState) (m : Manifest),
        st.fs.look (cmd.projectRootDir ++ ["package.json"]) = some (.file (.manifest m)) →
        st.fs.pathHas (cmd.projectRootDir ++ ["routes"]) = true →
        augmentExistingProject cmd st
          = .fatal ⟨st.fs.writeFile (cmd.projectRootDir ++ ["package.json"])
                      (.manifest (mergeDevServerScript m)),
                    st.installs ++ [installCall cmd]⟩)
    ∧ (∀ (cmd : CreateCommand) (st st2 : SysState),
        augmentExistingProject cmd st = .success st2 →
        ∃ m2, st2.fs.look (cmd.projectRootDir ++ ["package.json"]) = some (.file (.manifest m2))
          ∧ augmentExistingProject cmd st2
              = .fatal ⟨st2.fs.writeFile (cmd.projectRootDir ++ ["package.json"])
                          (.manifest (mergeDevServerScript m2)),
                        st2.installs ++ [installCall cmd]⟩) := by
  refine ⟨routes_fatal_of_present, augment_fatal_at_routes, ?_⟩
  intro cmd st st2 h
  obtain ⟨⟨m2, hm⟩, hr, _⟩ := augment_success_shape cmd st st2 h
  exact ⟨m2, hm, augment_fatal_at_routes cmd st2 m2 hm hr⟩

/-- Witness for C5: an augment run over a project that already has `routes/`
fails at the routes step with the install and merge effects in the final
state. -/
theorem claim_C5_witness :
    augmentExistingProject ⟨"my-api", PackageManager.npm, true, ["w"]⟩
        ⟨⟨[(["w"], .dir),
           (["w", "package.json"], .file (.manifest ⟨[("name", "app")], [("dev", "vite")]⟩)),
           (["w", "routes"], .dir)]⟩, []⟩
      = .fatal ⟨FS.writeFile ⟨[(["w"], .dir),
                  (["w", "package.json"], .file (.manifest ⟨[("name", "app")], [("dev", "vite")]⟩)),
                  (["w", "routes"], .dir)]⟩ (["w"] ++ ["package.json"])
                  (.manifest (mergeDevServerScript ⟨[("name", "app")], [("dev", "vite")]⟩)),
                [installCall ⟨"my-api", PackageManager.npm, true, ["w"]⟩]⟩ :=
  claim_C5_routes_failure.2.1 ⟨"my-api", PackageManager.npm, true, ["w"]⟩
    ⟨⟨[(["w"], .dir),
       (["w", "package.json"], .file (.manifest ⟨[("name", "app")], [("dev", "vite")]⟩)),
       (["w", "routes"], .dir)]⟩, []⟩
    ⟨[("name", "app")], [("dev", "vite")]⟩ (by decide) (by decide)

/-- C6 counterexample: the claim says the install step passes an argument
vector that DIFFERS per manager; in the code `args = ["install", "--D",
...devDeps]` is one fixed list, so at the same root the three managers
receive identical argument vectors. -/
theorem claim_C6_counterexample :
    (installDependencies ⟨"my-api", PackageManager.npm, false, ["w", "my-api"]⟩ ⟨⟨[]⟩, []⟩).state.installs.map ExecaCall.args
      = (installDependencies ⟨"my-api", PackageManager.pnpm, false, ["w", "my-api"]⟩ ⟨⟨[]⟩, []⟩).state.installs.map ExecaCall.args
    ∧ (installDependencies ⟨"my-api", PackageManager.pnpm, false, ["w", "my-api"]⟩ ⟨⟨[]⟩, []⟩).state.installs.map ExecaCall.args
      = (installDependencies ⟨"my-api", PackageManager.bun, false, ["w", "my-api"]⟩ ⟨⟨[]⟩, []⟩).state.installs.map ExecaCall.args :=
  ⟨rfl, rfl⟩

/-- C6 amended: the dependency-install step spawns the manager-named binary
(the name alone distinguishes the manager) with one fixed argument vector
`["install", "--D", ...devDeps]` common to all three managers, and the child
process working directory is the project root. -/
theorem claim_C6_install_invocation :
    ∀ (cmd : CreateCommand) (st : SysState),
      installDependencies cmd st
        = .success ⟨st.fs, st.installs ++ [⟨pmName cmd.packageManager, installArgs, cmd.projectRootDir⟩]⟩
      ∧ (∀ p q : PackageManager, pmName p = pmName q → p = q) := by
  intro cmd st
  exact ⟨rfl, by decide⟩

/-- Witness for C6 at a concrete command and state. -/
theorem claim_C6_witness :
    installDependencies ⟨"my-api", PackageManager.npm, false, ["w", "my-api"]⟩ ⟨⟨[]⟩, []⟩
      = .success ⟨⟨[]⟩, [⟨"npm", installArgs, ["w", "my-api"]⟩]⟩
    ∧ PackageManager.pnpm = PackageManager.pnpm :=
  ⟨(claim_C6_install_invocation ⟨"my-api", PackageManager.npm, false, ["w", "my-api"]⟩ ⟨⟨[]⟩, []⟩).1,
   (claim_C6_install_invocation ⟨"my-api", PackageManager.npm, false, ["w", "my-api"]⟩ ⟨⟨[]⟩, []⟩).2
     PackageManager.pnpm PackageManager.pnpm rfl⟩

/-- Across every control path of the augment workflow, either no install was
recorded (precondition exit) or exactly the one `installCall` was. -/
theorem augment_installs (cmd : CreateCommand) (st : SysState) :
    (augmentExistingProject cmd st).state.installs = st.installs
    ∨ (augmentExistingProject cmd st).state.installs = st.installs ++ [installCall cmd] := by
  unfold augmentExistingProject
  split
  case isFalse => exact Or.inl rfl
  right
  simp only [installDependencies]
  split
  next x haux =>
    unfold addDevServerScript at haux
    split at haux
    next m hlook => exact RunResult.noConfusion haux
    next hnm =>
      injection haux with haux
      subst haux
      rfl
  next stB haux =>
    have hB : stB.installs = st.installs ++ [installCall cmd] := by
      unfold addDevServerScript at haux
      split at haux
      next m hlook =>
        injection haux with haux
        subst haux
        rfl
      next hnm => exact RunResult.noConfusion haux
    split
    next y heq2 =>
      have hy : y.installs = stB.installs := by
        unfold createSampleRoutesDirectory at heq2
        split at heq2
        · injection heq2 with e
          subst e
          rfl
        split at heq2
        next hmk =>
          injection heq2 with e
          subst e
          rfl
        next fs1 hmk => exact RunResult.noConfusion heq2
      dsimp only [RunResult.state]
      rw [hy, hB]
    next stC heq2 =>
      have hC : stC.installs = stB.installs := by
        unfold createSampleRoutesDirectory at heq2
        split at heq2
        · exact RunResult.noConfusion heq2
        split at heq2
        next hmk => exact RunResult.noConfusion heq2
        next fs1 hmk =>
          injection heq2 with e
          subst e
          rfl
      unfold addGitIgnoreEntries
      split
      · dsimp only [RunResult.state]
        rw [hC, hB]
      · dsimp only [RunResult.state]
        rw [hC, hB]

/-- C7 counterexample: an augment run through the `--existing` flag records an
install whose argument vector is exactly the create-mode list — the
process-orchestration helper `concurrently` is NOT among the installed
packages, contradicting the claim that augment mode adds it. -/
theorem claim_C7_counterexample :
    ((CreateCommand.run ⟨"my-api", PackageManager.npm, true, ["w"]⟩ []
        ⟨⟨[(["w"], .dir),
           (["w", "package.json"], .file (.manifest ⟨[("name", "app")], [("dev", "vite")]⟩))]⟩,
          []⟩).state.installs.map ExecaCall.args)
      = [["install", "--D", "typescript", "@types/node", "@endpts/types", "@endpts/devtools"]]
    ∧ "concurrently" ∉ ["install", "--D", "typescript", "@types/node", "@endpts/types", "@endpts/devtools"] := by
  exact ⟨by decide, by decide⟩

/-- C7 amended: the `--existing` augment workflow installs exactly the
create-mode dependency list (it records at most the shared `installCall`,
whose arguments are the create-mode `installArgs`); the orchestration helper
`concurrently` appears only in the Vite-integration variant's list, which is
the create-mode list plus `concurrently`. -/
theorem claim_C7_augment_deps :
    ∀ (cmd : CreateCommand) (st : SysState),
      ((augmentExistingProject cmd st).state.installs = st.installs
        ∨ (augmentExistingProject cmd st).state.installs = st.installs ++ [installCall cmd])
      ∧ (installCall cmd).args = installArgs
      ∧ viteInstallArgs = installArgs ++ ["concurrently"]
      ∧ "concurrently" ∉ installArgs := by
  intro cmd st
  exact ⟨augment_installs cmd st, rfl, by decide, by decide⟩

/-- C1 (claim vs code): the directory-creation guard itself accepts a target
that exists but is empty (`existsSync && readdirSync.length !== 0` is false
there, matching the "already exists or is not empty" message), yet the very
next statement `fs.mkdirSync(rootDir)` (non-recursive) throws EEXIST on an
existing directory, so the catch block exits 1: a full create run over an
existing empty root FAILS, contradicting the claim. On a non-existent target
the run does succeed and produces the claimed artifacts: the template tree
with the `gitignore` file renamed to `.gitignore`, and a `package.json` whose
scripts mapping contains `dev`. -/
theorem claim_C1_create_empty_dir :
    (FS.pathHas ⟨[(["w"], .dir), (["w", "my-api"], .dir)]⟩ ["w", "my-api"] = true
      ∧ FS.hasChild ⟨[(["w"], .dir), (["w", "my-api"], .dir)]⟩ ["w", "my-api"] = false)
    ∧ CreateCommand.run ⟨"my-api", PackageManager.npm, false, ["w", "my-api"]⟩
        [FNode.dir "routes" [FNode.dir "users" [FNode.file "get_user_by_id.ts" (.blob "template-get-user-by-id")]],
         FNode.file "gitignore" (.blob "template-gitignore")]
        ⟨⟨[(["w"], .dir), (["w", "my-api"], .dir)]⟩, []⟩
      = .fatal ⟨⟨[(["w"], .dir), (["w", "my-api"], .dir)]⟩, []⟩
    ∧ CreateCommand.run ⟨"my-api", PackageManager.npm, false, ["w", "my-api"]⟩
        [FNode.dir "routes" [FNode.dir "users" [FNode.file "get_user_by_id.ts" (.blob "template-get-user-by-id")]],
         FNode.file "gitignore" (.blob "template-gitignore")]
        ⟨⟨[(["w"], .dir)]⟩, []⟩
      = .success ⟨⟨[(["w", "my-api", ".gitignore"], .file (.blob "template-gitignore")),
                    (["w", "my-api", "routes", "users", "get_user_by_id.ts"], .file (.blob "template-get-user-by-id")),
                    (["w", "my-api", "routes", "users"], .dir),
                    (["w", "my-api", "routes"], .dir),
                    (["w", "my-api", "package.json"], .file (.manifest (createManifest "my-api"))),
                    (["w", "my-api"], .dir),
                    (["w"], .dir)]⟩,
                  [⟨"npm", installArgs, ["w", "my-api"]⟩]⟩
    ∧ jsLookup (createManifest "my-api").scripts "dev" = some "endpts dev"
    ∧ FS.look ⟨[(["w", "my-api", ".gitignore"], .file (.blob "template-gitignore")),
                (["w", "my-api", "routes", "users", "get_user_by_id.ts"], .file (.blob "template-get-user-by-id")),
                (["w", "my-api", "routes", "users"], .dir),
                (["w", "my-api", "routes"], .dir),
                (["w", "my-api", "package.json"], .file (.manifest (createManifest "my-api"))),
                (["w", "my-api"], .dir),
                (["w"], .dir)]⟩ ["w", "my-api", ".gitignore"]
        = some (.file (.blob "template-gitignore"))
    ∧ FS.look ⟨[(["w", "my-api", ".gitignore"], .file (.blob "template-gitignore")),
                (["w", "my-api", "routes", "users", "get_user_by_id.ts"], .file (.blob "template-get-user-by-id")),
                (["w", "my-api", "routes", "users"], .dir),
                (["w", "my-api", "routes"], .dir),
                (["w", "my-api", "package.json"], .file (.manifest (createManifest "my-api"))),
                (["w", "my-api"], .dir),
                (["w"], .dir)]⟩ ["w", "my-api", "gitignore"]
        = none := by
  refine ⟨⟨by decide, by decide⟩, by decide, ?_, by decide, by decide, by decide⟩
  simp [CreateCommand.run, cleanBootstrap, createProjectDir, writePackageJson, copyTemplateFiles,
    installDependencies, copyFiles, destName, FS.mkdir, FS.mkdirp, FS.writeFile, FS.put, FS.look,
    FS.pathHas, FS.hasChild, installCall, pmName, List.find?]
